import Mathlib

/-!
Verification of the wxread resilient signed-request engine.

Shallow embedding of the Python sources:
* `src/core/crypto.py`   — `CryptoUtils` (custom hash, request signing, response validation)
* `src/core/bot.py`      — `WxReadBot` (read loop orchestrator)
* `src/core/request_manager.py` — `RequestManager` (transport, cookie renewal)
* `src/utils/retry.py`   — `retry_with_backoff`, `CircuitBreaker`

Python dictionaries with string keys are embedded as association lists,
machine-level integer operations as `Nat` operations with explicit masking,
exceptions as `Except`/`Option` values, and the injected effects (clock,
random numbers, HTTP responses) as explicit parameters.
-/

namespace WxRead

/-- Values that can occur in the request/response dictionaries (JSON scalars). -/
inductive PyVal where
  | vInt : Int → PyVal
  | vStr : String → PyVal
deriving DecidableEq

/-- A Python `Dict[str, Any]` as an association list. -/
abbrev RDict := List (String × PyVal)

/-- Python `d[k] = v`: replace the value at an existing key, else append. -/
def dictSet (d : RDict) (k : String) (v : PyVal) : RDict :=
  match d with
  | [] => [(k, v)]
  | (k1, v1) :: rest =>
      if k1 = k then (k, v) :: rest else (k1, v1) :: dictSet rest k v

/-- Python `d.pop(k, None)`: the dictionary without key `k`. -/
def dictPop (d : RDict) (k : String) : RDict :=
  d.filter (fun p => p.1 != k)

/-- `CryptoUtils.validate_response` (crypto.py lines 200-231): `succ` must be
present and equal to `1`; `synckey` is only logged, never consulted. -/
def validate_response (r : RDict) : Bool :=
  if (r.lookup "succ").isNone then false
  else if r.lookup "succ" != some (PyVal.vInt 1) then false
  else true

/-- The loop of `CryptoUtils.calculate_hash` (crypto.py lines 74-84):
`while i > 0`, stepping `i` down by 2, updating the two 31-bit accumulators.
`code j` is `ord(input_string[j])`. -/
def hashLoop (code : Nat → Nat) (L : Nat) : Nat → Nat → Nat → Nat × Nat
  | 0, h1, h2 => (h1, h2)
  | 1, h1, h2 =>
      (0x7fffffff &&& (h1 ^^^ (code 1 <<< ((L - 1) % 30))),
       0x7fffffff &&& (h2 ^^^ (code 0 <<< (1 % 30))))
  | (i+2), h1, h2 =>
      hashLoop code L i
        (0x7fffffff &&& (h1 ^^^ (code (i+2) <<< ((L - (i+2)) % 30))))
        (0x7fffffff &&& (h2 ^^^ (code (i+1) <<< ((i+2) % 30))))

/-- `CryptoUtils.calculate_hash` (crypto.py lines 56-92): seed both
accumulators with `0x15051505`, run the loop from `L-1`, and render
`hex(h1+h2)[2:]` (lowercase hexadecimal, no `0x`, no padding). -/
def calculate_hash (s : String) : String :=
  let L := s.length
  let code := fun j => (s.data.getD j 'A').toNat
  let p := hashLoop code L (L - 1) 0x15051505 0x15051505
  String.mk (Nat.toDigits 16 (p.1 + p.2))

/-- The index sequence described by the spec: `i` from the given start down
to 1 in steps of 2, only positive indices. -/
def downTo1By2 : Nat → List Nat
  | 0 => []
  | 1 => [1]
  | (i+2) => (i+2) :: downTo1By2 i

/-- One update of the accumulator pair as the spec words it:
`h1 = (h1 XOR (code(i) << ((L-i) mod 30))) & 0x7fffffff` and, with the
previous index, `h2 = (h2 XOR (code(i-1) << (i mod 30))) & 0x7fffffff`. -/
def specStep (code : Nat → Nat) (L : Nat) (p : Nat × Nat) (i : Nat) : Nat × Nat :=
  ((p.1 ^^^ (code i <<< ((L - i) % 30))) &&& 0x7fffffff,
   (p.2 ^^^ (code (i - 1) <<< (i % 30))) &&& 0x7fffffff)

/-- The custom hash exactly as the specification describes it: both 31-bit
accumulators seeded with `0x15051505`, folded over the index sequence
`L-1, L-3, ...` down to 1, result rendered as bare lowercase hex. -/
def spec_calculate_hash (s : String) : String :=
  let L := s.length
  let code := fun j => (s.data.getD j 'A').toNat
  let p := (downTo1By2 (L - 1)).foldl (specStep code L) (0x15051505, 0x15051505)
  String.mk (Nat.toDigits 16 (p.1 + p.2))

/-- `CryptoUtils.ENCRYPTION_KEY` (crypto.py line 27). -/
def ENCRYPTION_KEY : String := "3c5c8717f3daf09iop3423zafeqoi"

/-- `CryptoUtils.generate_signature` (crypto.py lines 94-118):
`sha256(f"{timestamp}{random_num}{ENCRYPTION_KEY}").hexdigest()`. The SHA-256
primitive is Python's `hashlib`, external to this repository, so it is passed
in as the function `sha`. -/
def generate_signature (sha : String → String) (timestamp random_num : Int) : String :=
  sha (toString timestamp ++ toString random_num ++ ENCRYPTION_KEY)

/-- Python `str(value)` on the values stored in request dictionaries. -/
def pyStr : PyVal → String
  | .vInt n => toString n
  | .vStr s => s

/-- The characters `urllib.parse.quote` never escapes (`safe=''`):
ALPHA / DIGIT / `-` / `_` / `.` / `~`. -/
def isUnreserved (c : Char) : Bool :=
  ('A' ≤ c && c ≤ 'Z') || ('a' ≤ c && c ≤ 'z') || ('0' ≤ c && c ≤ '9') ||
  c = '-' || c = '_' || c = '.' || c = '~'

/-- Uppercase hexadecimal digit, as `urllib.parse.quote` emits. -/
def hexUpper (d : Nat) : Char :=
  if d < 10 then Char.ofNat ('0'.toNat + d) else Char.ofNat ('A'.toNat + d - 10)

/-- UTF-8 encoding of a code point, byte values as `Nat`. -/
def utf8Bytes (n : Nat) : List Nat :=
  if n < 0x80 then [n]
  else if n < 0x800 then
    [0xC0 ||| (n >>> 6), 0x80 ||| (n &&& 0x3F)]
  else if n < 0x10000 then
    [0xE0 ||| (n >>> 12), 0x80 ||| ((n >>> 6) &&& 0x3F), 0x80 ||| (n &&& 0x3F)]
  else
    [0xF0 ||| (n >>> 18), 0x80 ||| ((n >>> 12) &&& 0x3F),
     0x80 ||| ((n >>> 6) &&& 0x3F), 0x80 ||| (n &&& 0x3F)]

/-- `urllib.parse.quote(value, safe='')` on one character. -/
def quoteChar (c : Char) : String :=
  if isUnreserved c then String.singleton c
  else String.join ((utf8Bytes c.toNat).map
    (fun b => String.mk ['%', hexUpper (b / 16), hexUpper (b % 16)]))

/-- `urllib.parse.quote(value, safe='')` on a string. -/
def quote (s : String) : String :=
  String.join (s.data.map quoteChar)

/-- `CryptoUtils.encode_data` (crypto.py lines 29-54): keys sorted
ascending, each `str(value)` percent-encoded, joined as `k=v&k=v...`. -/
def encode_data (d : RDict) : String :=
  let sorted := d.mergeSort (fun a b => !(decide (b.1 < a.1)))
  String.intercalate "&" (sorted.map (fun p => p.1 ++ "=" ++ quote (pyStr p.2)))

/-- The payload built by `CryptoUtils.create_request_data` (crypto.py lines
147-198) just before the final hash is attached: copy of the base with `s`
popped, `b`/`c` overwritten, and `ct`/`ts`/`rt`/`rn`/`sg` filled from the
injected clock and random values. -/
def payloadCore (sha : String → String) (base_data : RDict)
    (book_id chapter_id : String) (last_time current_time ts_ms rn : Int) : RDict :=
  let data := base_data
  let data := dictPop data "s"
  let data := dictSet data "b" (.vStr book_id)
  let data := dictSet data "c" (.vStr chapter_id)
  let data := dictSet data "ct" (.vInt current_time)
  let data := dictSet data "ts" (.vInt ts_ms)
  let data := dictSet data "rt" (.vInt (current_time - last_time))
  let data := dictSet data "rn" (.vInt rn)
  dictSet data "sg" (.vStr (generate_signature sha ts_ms rn))

/-- `CryptoUtils.create_request_data` (crypto.py lines 147-198). The first
component is the caller's `base_data` after the call: the source copies the
template (`base_data.copy()`) before any update, so it comes back unchanged.
The second component is the returned payload, with the final hash `s`
computed from the serialized payload. -/
def create_request_data (sha : String → String) (base_data : RDict)
    (book_id chapter_id : String) (last_time current_time ts_ms rn : Int) :
    RDict × RDict :=
  let data := payloadCore sha base_data book_id chapter_id last_time current_time ts_ms rn
  (base_data, dictSet data "s" (.vStr (calculate_hash (encode_data data))))

/-- The observable result of `WxReadBot.read_once` (bot.py lines 175-220):
the returned `(success, current_time, error)` triple, plus whether
`fix_synckey` and `refresh_cookie` were called on the way. -/
structure ReadOutcome where
  success : Bool
  time : Int
  error : Option String
  fixCalled : Bool
  refreshCalled : Bool
deriving DecidableEq

/-- `WxReadBot.read_once` (bot.py lines 175-220). The injected effects are
explicit: `ct` is the clock value that `create_request_data` stores in the
payload, `resp` is the outcome of `request_manager.read_book` (`Except.error`
models an exception escaping the `try` block, carrying its message), and
`refreshOk` is what `refresh_cookie` would return if called. -/
def read_once (ct last_time : Int) (resp : Except String RDict)
    (refreshOk : Bool) : ReadOutcome :=
  match resp with
  | .error e => ⟨false, last_time, some ("阅读请求失败: " ++ e), false, false⟩
  | .ok response =>
    if validate_response response then
      if (response.lookup "synckey").isSome then
        ⟨true, ct, none, false, false⟩
      else
        ⟨false, last_time, some "缺少synckey", true, false⟩
    else
      if refreshOk then ⟨false, last_time, some "Cookie已刷新", false, true⟩
      else ⟨false, last_time, some "Cookie刷新失败", false, true⟩

/-- The injected environment of one loop iteration of
`WxReadBot.start_reading`: the clock value the signer would store as `ct`,
the transport outcome, and the result `refresh_cookie` would report. -/
structure AttemptEnv where
  ct : Int
  resp : Except String RDict
  refreshOk : Bool

/-- Whether an attempt with this environment succeeds: the transport returned
a body with `succ == 1` and a `synckey` field (independent of `last_time`). -/
def attemptSucceeds (env : AttemptEnv) : Bool :=
  match env.resp with
  | .error _ => false
  | .ok r => validate_response r && (r.lookup "synckey").isSome

/-- The `for attempt in range(1, read_num + 1)` loop of
`WxReadBot.start_reading` (bot.py lines 239-263): threads `success_count`
and `last_time`; `last_time` is assigned only on success. -/
def readLoop (envs : Nat → AttemptEnv) :
    Nat → Nat → Nat → Int → Nat × Int
  | _, 0, success_count, last_time => (success_count, last_time)
  | attempt, remaining + 1, success_count, last_time =>
    let env := envs attempt
    let res := read_once env.ct last_time env.resp env.refreshOk
    if res.success then
      readLoop envs (attempt + 1) remaining (success_count + 1) res.time
    else
      readLoop envs (attempt + 1) remaining success_count last_time

/-- The number of successful attempts in a run of `read_num` iterations:
attempt `i+1` (1-based, as the loop counts) succeeds iff its environment
satisfies `attemptSucceeds`. -/
def countSuccesses (envs : Nat → AttemptEnv) (read_num : Nat) : Nat :=
  (List.range read_num).countP (fun i => attemptSucceeds (envs (i + 1)))

/-- The record `start_reading` returns (bot.py lines 265-272). Fractional
values are embedded as rationals; `0.5` and the percentages involved are
exactly representable. -/
structure RunResult where
  success_count : Nat
  total_attempts : Nat
  reading_minutes : ℚ
  success_rate : ℚ
deriving DecidableEq

/-- `WxReadBot.start_reading` (bot.py lines 222-279): the initial
`refresh_cookie` failure raises `AuthError` (modelled as `Except.error ()`);
otherwise the loop runs `read_num` times starting from
`last_time = time() - 30` and the statistics record is built. -/
def start_reading (read_num : Nat) (initialRefreshOk : Bool) (t0 : Int)
    (envs : Nat → AttemptEnv) : Except Unit RunResult :=
  if !initialRefreshOk then .error ()
  else
    let p := readLoop envs 1 read_num 0 (t0 - 30)
    .ok { success_count := p.1
          total_attempts := read_num
          reading_minutes := (p.1 : ℚ) * 0.5
          success_rate := (p.1 : ℚ) / (read_num : ℚ) * 100 }

/-- `CircuitState` (retry.py lines 24-28). -/
inductive CircuitState where
  | closed
  | opened
  | halfOpen
deriving DecidableEq

/-- The mutable fields of a `CircuitBreaker` (retry.py lines 120-122).
Times are abstract clock readings (`datetime.now()` values). -/
structure CBState where
  failure_count : Nat
  last_failure_time : Option Nat
  state : CircuitState
deriving DecidableEq

/-- `CircuitBreaker._should_attempt_reset` (retry.py lines 152-159). -/
def shouldAttemptReset (cb : CBState) (recovery_timeout now : Nat) : Bool :=
  match cb.last_failure_time with
  | none => true
  | some t => recovery_timeout ≤ now - t

/-- `CircuitBreaker._on_success` (retry.py lines 161-167). -/
def onSuccess (cb : CBState) : CBState :=
  { cb with failure_count := 0, state := .closed }

/-- `CircuitBreaker._on_failure` (retry.py lines 169-178). -/
def onFailure (failure_threshold now : Nat) (cb : CBState) : CBState :=
  let cb1 := { cb with failure_count := cb.failure_count + 1,
                       last_failure_time := some now }
  if failure_threshold ≤ cb1.failure_count then { cb1 with state := .opened }
  else cb1

/-- How one invocation of the wrapped function ends: normal return, a raise
of the breaker's `expected_exception` type, or a raise of any other type. -/
inductive FuncOutcome where
  | ok
  | failExpected
  | failOther
deriving DecidableEq

/-- How `_call_with_circuit_breaker` itself ends. -/
inductive CallResult where
  | returned
  | circuitOpenRejection
  | raisedExpected
  | raisedOther
deriving DecidableEq

/-- The `try`/`except self.expected_exception` body of
`_call_with_circuit_breaker` (retry.py lines 144-150): run the function,
update the breaker, re-raise failures. Other exception types have no
handler and leave the breaker untouched. -/
def runFunc (failure_threshold now : Nat) (cb : CBState) (f : FuncOutcome) :
    CBState × Bool × CallResult :=
  match f with
  | .ok => (onSuccess cb, true, .returned)
  | .failExpected => (onFailure failure_threshold now cb, true, .raisedExpected)
  | .failOther => (cb, true, .raisedOther)

/-- `CircuitBreaker._call_with_circuit_breaker` (retry.py lines 133-150).
`f` is how the wrapped function would end if invoked; the middle component
of the result records whether it actually was invoked. -/
def cbCall (failure_threshold recovery_timeout : Nat) (cb : CBState)
    (now : Nat) (f : FuncOutcome) : CBState × Bool × CallResult :=
  if cb.state = .opened then
    if shouldAttemptReset cb recovery_timeout now then
      runFunc failure_threshold now { cb with state := .halfOpen } f
    else
      (cb, false, .circuitOpenRejection)
  else
    runFunc failure_threshold now cb f

/-- How one invocation of an operation under `retry_with_backoff` ends:
a return value, a raise of one of the configured retryable `exceptions`
types, or a raise of any other type. -/
inductive OpResult where
  | ok (v : Nat)
  | failRetryable
  | failOther
deriving DecidableEq

/-- How the `retry_with_backoff` wrapper ends. `raisedNone` is the
`raise last_exception` fallthrough after a loop over zero attempts. -/
inductive RetryResult where
  | returned (v : Nat)
  | raisedRetryable
  | raisedOther
  | raisedNone
deriving DecidableEq

/-- The `for attempt in range(max_attempts)` loop of `retry_with_backoff`
(retry.py lines 54-88), starting at a given attempt index with the given
number of loop iterations left. `outcomes i` is how the `i`-th invocation of
the wrapped function would end. Returns the wrapper's result, the number of
invocations actually made, and the number of backoff sleeps performed. -/
def retryLoop (outcomes : Nat → OpResult) (attempt : Nat) :
    Nat → RetryResult × Nat × Nat
  | 0 => (.raisedNone, 0, 0)
  | remaining + 1 =>
    match outcomes attempt with
    | .ok v => (.returned v, 1, 0)
    | .failOther => (.raisedOther, 1, 0)
    | .failRetryable =>
      if remaining = 0 then (.raisedRetryable, 1, 0)
      else
        let r := retryLoop outcomes (attempt + 1) remaining
        (r.1, r.2.1 + 1, r.2.2 + 1)

/-- The `retry_with_backoff` wrapper (retry.py lines 31-91) applied to an
operation whose successive invocations end as `outcomes 0, outcomes 1, ...`. -/
def retryRun (outcomes : Nat → OpResult) (max_attempts : Nat) :
    RetryResult × Nat × Nat :=
  retryLoop outcomes 0 max_attempts

/-- How the retry wrapper's ending looks to the circuit breaker around it:
a `NetworkError` escaping the retries is the breaker's expected exception
type; any other escaping exception is unexpected. -/
def classifyRetry : RetryResult → FuncOutcome
  | .returned _ => .ok
  | .raisedRetryable => .failExpected
  | .raisedOther => .failOther
  | .raisedNone => .failOther

/-- `RequestManager.read_book` (request_manager.py lines 157-180): the
circuit breaker wraps the retry-decorated `post_json`. Returns the new
breaker state, the call result, the number of network POST attempts made,
and the number of retry backoff sleeps incurred. -/
def read_book (failure_threshold recovery_timeout : Nat) (cb : CBState)
    (now : Nat) (max_attempts : Nat) (outcomes : Nat → OpResult) :
    CBState × CallResult × Nat × Nat :=
  let rr := retryRun outcomes max_attempts
  let c := cbCall failure_threshold recovery_timeout cb now (classifyRetry rr.1)
  (c.1, c.2.2, if c.2.1 then rr.2.1 else 0, if c.2.1 then rr.2.2 else 0)

/-- Python `needle in haystack` on strings. -/
def strContains (haystack needle : String) : Bool :=
  (List.range (haystack.data.length + 1)).any
    (fun i => needle.data.isPrefixOf (haystack.data.drop i))

/-- Python `s.split(sep)` for a single-character separator, on the character
list: splitting never drops empty pieces (`"".split(';') == ['']`,
`"a;;b".split(';') == ['a','','b']`). -/
def splitChars (sep : Char) : List Char → List (List Char)
  | [] => [[]]
  | c :: rest =>
    let r := splitChars sep rest
    if c = sep then [] :: r
    else
      match r with
      | [] => [[c]]
      | h :: t => (c :: h) :: t

/-- Python `s.split(sep)` for a single-character separator. -/
def pySplit (s : String) (sep : Char) : List String :=
  (splitChars sep s.data).map String.mk

/-- The `Set-Cookie` scan of `RequestManager.renew_cookie`
(request_manager.py lines 210-219), given an HTTP-success renewal response:
the first `;`-separated fragment containing `"wr_skey"` yields
`fragment.split('=')[-1][:8]`; otherwise `None`. -/
def renew_cookie (set_cookie_header : String) : Option String :=
  match (pySplit set_cookie_header ';').find? (fun c => strContains c "wr_skey") with
  | some c => some (String.mk (((pySplit c '=').getLastD "").data.take 8))
  | none => none

/-- Python `cookies[k] = v` on the string-valued cookies dictionary. -/
def cookieSet (d : List (String × String)) (k v : String) :
    List (String × String) :=
  match d with
  | [] => [(k, v)]
  | (k1, v1) :: rest =>
      if k1 = k then (k, v) :: rest else (k1, v1) :: cookieSet rest k v

/-- `WxReadBot.refresh_cookie` (bot.py lines 129-157): `renewResult` is what
`request_manager.renew_cookie` did (`Except.error` models a raise). The new
key is installed under `wr_skey` only when Python finds it truthy
(`if new_skey:`), i.e. not `None` and not the empty string. Returns the
method's boolean result and the cookies dictionary afterwards. -/
def refresh_cookie (cookies : List (String × String))
    (renewResult : Except Unit (Option String)) :
    Bool × List (String × String) :=
  match renewResult with
  | .error _ => (false, cookies)
  | .ok none => (false, cookies)
  | .ok (some k) =>
    if k = "" then (false, cookies)
    else (true, cookieSet cookies "wr_skey" k)

/-! ## Lemmas and claim theorems -/

lemma hashLoop_eq_foldl (code : Nat → Nat) (L : Nat) :
    ∀ i h1 h2, hashLoop code L i h1 h2 =
      (downTo1By2 i).foldl (specStep code L) (h1, h2) := by
  intro i
  induction i using Nat.strong_induction_on with
  | _ i ih =>
    match i with
    | 0 => intro h1 h2; simp [hashLoop, downTo1By2]
    | 1 =>
      intro h1 h2
      simp [hashLoop, downTo1By2, specStep, Nat.and_comm]
    | (i+2) =>
      intro h1 h2
      rw [hashLoop, downTo1By2, List.foldl_cons, ih i (by omega)]
      simp [specStep, Nat.and_comm]

/-- C1: `calculate_hash` computes exactly the two-accumulator 31-bit hash the
specification describes (seeds `0x15051505`, index `i` from `L-1` down to 1 in
steps of 2, `h1` updated from `code(i)` with shift `(L-i) mod 30`, `h2` from
`code(i-1)` with shift `i mod 30`, bare lowercase hex of `h1+h2`), and on the
empty string and on every length-1 string it returns the hex of
`2 * 0x15051505`, namely `"2a0a2a0a"`. -/
theorem calculate_hash_spec :
    (∀ s : String, calculate_hash s = spec_calculate_hash s)
  ∧ calculate_hash "" = String.mk (Nat.toDigits 16 (2 * 0x15051505))
  ∧ calculate_hash "" = "2a0a2a0a"
  ∧ (∀ c : Char, calculate_hash (String.mk [c]) = "2a0a2a0a") := by
  refine ⟨?_, by decide, by decide, ?_⟩
  · intro s
    simp only [calculate_hash, spec_calculate_hash, hashLoop_eq_foldl]
  · intro c
    have hlen : (String.mk [c]).length = 1 := rfl
    simp only [calculate_hash, hlen, hashLoop]
    decide

lemma validate_response_iff (r : RDict) :
    validate_response r = true ↔ r.lookup "succ" = some (PyVal.vInt 1) := by
  unfold validate_response
  rcases h : r.lookup "succ" with _ | v <;> simp [h]

/-- C2 (counterexample): the claim also routes non-2xx / malformed-JSON
responses to the cookie-renewal path, but those surface in `read_once` as an
exception from the transport (`post_json` raises `NetworkError`), which the
`except` block absorbs as a generic failed attempt: `refresh_cookie` is not
called there. Concrete input: the transport raises with message "HTTP错误". -/
theorem read_once_transport_error_no_renewal :
    (read_once 100 50 (Except.error "HTTP错误") true).refreshCalled = false
  ∧ (read_once 100 50 (Except.error "HTTP错误") true).success = false
  ∧ (read_once 100 50 (Except.error "HTTP错误") true).time = 50 :=
  ⟨rfl, rfl, rfl⟩

/-- C2 (amended): `validate_response r` is true iff `r` maps `"succ"` to `1`,
with `synckey` never consulted; on a parsed response body, `succ==1` with a
`synckey` field is the success outcome, `succ==1` without `synckey` takes the
repair path (`fix_synckey` called, attempt recorded failed), and `succ`
absent or `≠ 1` takes the cookie-renewal path; transport-level failures
(non-2xx, malformed JSON) are absorbed as generic failures without renewal. -/
theorem response_classification :
    (∀ r : RDict, validate_response r = true ↔ r.lookup "succ" = some (PyVal.vInt 1))
  ∧ (∀ (r : RDict) (ct lt : Int) (ro : Bool),
      r.lookup "succ" = some (PyVal.vInt 1) → (r.lookup "synckey").isSome →
        read_once ct lt (.ok r) ro = ⟨true, ct, none, false, false⟩)
  ∧ (∀ (r : RDict) (ct lt : Int) (ro : Bool),
      r.lookup "succ" = some (PyVal.vInt 1) → r.lookup "synckey" = none →
        read_once ct lt (.ok r) ro = ⟨false, lt, some "缺少synckey", true, false⟩)
  ∧ (∀ (r : RDict) (ct lt : Int) (ro : Bool),
      r.lookup "succ" ≠ some (PyVal.vInt 1) →
        (read_once ct lt (.ok r) ro).refreshCalled = true
      ∧ (read_once ct lt (.ok r) ro).success = false
      ∧ (read_once ct lt (.ok r) ro).time = lt)
  ∧ (∀ (e : String) (ct lt : Int) (ro : Bool),
      (read_once ct lt (.error e) ro).refreshCalled = false
      ∧ (read_once ct lt (.error e) ro).success = false) := by
  refine ⟨validate_response_iff, ?_, ?_, ?_, ?_⟩
  · intro r ct lt ro hsucc hsync
    have hv : validate_response r = true := (validate_response_iff r).2 hsucc
    simp [read_once, hv, hsync]
  · intro r ct lt ro hsucc hsync
    have hv : validate_response r = true := (validate_response_iff r).2 hsucc
    simp [read_once, hv, hsync]
  · intro r ct lt ro hsucc
    have hv : validate_response r = false := by
      rcases hb : validate_response r with _ | _
      · rfl
      · exact absurd ((validate_response_iff r).1 hb) hsucc
    rcases ro with _ | _ <;> simp [read_once, hv]
  · intro e ct lt ro
    exact ⟨rfl, rfl⟩

/-- C2 (witness): the classification applied at concrete responses. -/
theorem response_classification_witness :
    read_once 7 3 (.ok [("succ", PyVal.vInt 1), ("synckey", PyVal.vStr "k")]) true
      = ⟨true, 7, none, false, false⟩
  ∧ read_once 7 3 (.ok [("succ", PyVal.vInt 1)]) true
      = ⟨false, 3, some "缺少synckey", true, false⟩
  ∧ (read_once 7 3 (.ok [("succ", PyVal.vInt 0)]) true).refreshCalled = true :=
  ⟨(response_classification.2.1 _ 7 3 true (by decide) (by decide)),
   (response_classification.2.2.1 _ 7 3 true (by decide) (by decide)),
   ((response_classification.2.2.2.1 _ 7 3 true (by decide)).1)⟩

/-- C3: the `CircuitBreaker` follows the specified state machine. In Closed
state calls pass through; an expected-exception failure increments the
counter and any success resets it to zero; reaching the threshold opens the
circuit (below it the state stays Closed). In Open state, while the cooldown
since the last failure has not elapsed, every call is rejected with
`CircuitBreakerError` without invoking the wrapped operation; once it has
elapsed the next call goes through as a half-open probe whose success
returns to Closed with the counter reset and whose failure returns to Open
with the cooldown clock reset to the current time. -/
theorem circuit_breaker_state_machine
    (th cd now c : Nat) (lf : Option Nat) (f : FuncOutcome) :
    ((cbCall th cd ⟨c, lf, .closed⟩ now f).2.1 = true)
  ∧ ((cbCall th cd ⟨c, lf, .closed⟩ now .failExpected).1.failure_count = c + 1)
  ∧ ((cbCall th cd ⟨c, lf, .closed⟩ now .ok).1 = ⟨0, lf, .closed⟩)
  ∧ (th ≤ c + 1 →
      (cbCall th cd ⟨c, lf, .closed⟩ now .failExpected).1 = ⟨c + 1, some now, .opened⟩)
  ∧ (c + 1 < th →
      (cbCall th cd ⟨c, lf, .closed⟩ now .failExpected).1 = ⟨c + 1, some now, .closed⟩)
  ∧ (∀ t, lf = some t → now - t < cd →
      cbCall th cd ⟨c, lf, .opened⟩ now f
        = (⟨c, lf, .opened⟩, false, .circuitOpenRejection))
  ∧ (∀ t, lf = some t → cd ≤ now - t →
      (cbCall th cd ⟨c, lf, .opened⟩ now f).2.1 = true)
  ∧ (∀ t, lf = some t → cd ≤ now - t →
      (cbCall th cd ⟨c, lf, .opened⟩ now .ok).1 = ⟨0, lf, .closed⟩)
  ∧ (∀ t, lf = some t → cd ≤ now - t → th ≤ c →
      (cbCall th cd ⟨c, lf, .opened⟩ now .failExpected).1
        = ⟨c + 1, some now, .opened⟩) := by
  refine ⟨?_, ?_, ?_, ?_, ?_, ?_, ?_, ?_, ?_⟩
  · rcases f with _ | _ | _ <;> simp [cbCall, runFunc, onSuccess, onFailure]
  · simp only [cbCall, runFunc, onFailure]
    split
    · simp_all
    · split <;> rfl
  · simp [cbCall, runFunc, onSuccess]
  · intro hth
    simp [cbCall, runFunc, onFailure, hth]
  · intro hth
    have h2 : ¬ th ≤ c + 1 := by omega
    simp [cbCall, runFunc, onFailure, h2]
  · intro t heq hlt
    subst heq
    have h1 : shouldAttemptReset ⟨c, some t, .opened⟩ cd now = false := by
      simp [shouldAttemptReset]; omega
    simp [cbCall, h1]
  · intro t heq hle
    subst heq
    have h1 : shouldAttemptReset ⟨c, some t, .opened⟩ cd now = true := by
      simp [shouldAttemptReset]; omega
    rcases f with _ | _ | _ <;> simp [cbCall, h1, runFunc, onSuccess, onFailure]
  · intro t heq hle
    subst heq
    have h1 : shouldAttemptReset ⟨c, some t, .opened⟩ cd now = true := by
      simp [shouldAttemptReset]; omega
    simp [cbCall, h1, runFunc, onSuccess]
  · intro t heq hle hth
    subst heq
    have h1 : shouldAttemptReset ⟨c, some t, .opened⟩ cd now = true := by
      simp [shouldAttemptReset]; omega
    have h2 : th ≤ c + 1 := by omega
    simp [cbCall, h1, runFunc, onFailure, h2]

/-- C3 (witness): a breaker with threshold 2 and cooldown 60 at concrete
states: rejection inside the cooldown window, opening on the second failure,
and a failed half-open probe re-opening with a fresh failure time. -/
theorem circuit_breaker_state_machine_witness :
    cbCall 2 60 ⟨2, some 10, .opened⟩ 30 .ok
      = (⟨2, some 10, .opened⟩, false, .circuitOpenRejection)
  ∧ (cbCall 2 60 ⟨1, some 10, .closed⟩ 30 .failExpected).1
      = ⟨2, some 30, .opened⟩
  ∧ (cbCall 2 60 ⟨2, some 10, .opened⟩ 100 .failExpected).1
      = ⟨3, some 100, .opened⟩ :=
  ⟨(circuit_breaker_state_machine 2 60 30 2 (some 10) .ok).2.2.2.2.2.1
      10 rfl (by decide),
   (circuit_breaker_state_machine 2 60 30 1 (some 10) .ok).2.2.2.1 (by decide),
   (circuit_breaker_state_machine 2 60 100 2 (some 10) .ok).2.2.2.2.2.2.2.2
      10 rfl (by decide) (by decide)⟩

lemma retryLoop_ok (outcomes : Nat → OpResult) :
    ∀ (k a rem v : Nat), k < rem →
      (∀ i, i < k → outcomes (a + i) = .failRetryable) →
      outcomes (a + k) = .ok v →
      retryLoop outcomes a rem = (.returned v, k + 1, k) := by
  intro k
  induction k with
  | zero =>
    intro a rem v hk hfail hok
    cases rem with
    | zero => omega
    | succ r =>
      rw [Nat.add_zero] at hok
      simp only [retryLoop, hok]
  | succ k ih =>
    intro a rem v hk hfail hok
    cases rem with
    | zero => omega
    | succ r =>
      have h0 : outcomes a = .failRetryable := by
        have h := hfail 0 (Nat.succ_pos k)
        rwa [Nat.add_zero] at h
      have hr : ¬ r = 0 := by omega
      have hrec := ih (a + 1) r v (by omega)
        (fun i hi => by
          have h := hfail (i + 1) (by omega)
          rwa [show a + (i + 1) = a + 1 + i by omega] at h)
        (by rwa [show a + (k + 1) = a + 1 + k by omega] at hok)
      simp only [retryLoop, h0, if_neg hr, hrec]

lemma retryLoop_allfail (outcomes : Nat → OpResult)
    (hfail : ∀ i, outcomes i = .failRetryable) :
    ∀ (rem a : Nat), 1 ≤ rem →
      retryLoop outcomes a rem = (.raisedRetryable, rem, rem - 1) := by
  intro rem
  induction rem with
  | zero => intro a h; omega
  | succ r ih =>
    intro a _
    by_cases hr : r = 0
    · subst hr
      simp [retryLoop, hfail a]
    · have hrec := ih (a + 1) (by omega)
      simp only [retryLoop, hfail a, if_neg hr, hrec]
      have h1 : r - 1 + 1 = r := by omega
      simp [h1]

lemma retryLoop_other (outcomes : Nat → OpResult) :
    ∀ (k a rem : Nat), k < rem →
      (∀ i, i < k → outcomes (a + i) = .failRetryable) →
      outcomes (a + k) = .failOther →
      retryLoop outcomes a rem = (.raisedOther, k + 1, k) := by
  intro k
  induction k with
  | zero =>
    intro a rem hk hfail hother
    cases rem with
    | zero => omega
    | succ r =>
      rw [Nat.add_zero] at hother
      simp only [retryLoop, hother]
  | succ k ih =>
    intro a rem hk hfail hother
    cases rem with
    | zero => omega
    | succ r =>
      have h0 : outcomes a = .failRetryable := by
        have h := hfail 0 (Nat.succ_pos k)
        rwa [Nat.add_zero] at h
      have hr : ¬ r = 0 := by omega
      have hrec := ih (a + 1) r (by omega)
        (fun i hi => by
          have h := hfail (i + 1) (by omega)
          rwa [show a + (i + 1) = a + 1 + i by omega] at h)
        (by rwa [show a + (k + 1) = a + 1 + k by omega] at hother)
      simp only [retryLoop, h0, if_neg hr, hrec]

/-- C4: the retry wrapper's contract. If the operation fails `k` times with a
retryable exception (`k < max_attempts`) and then succeeds, the wrapper
returns the success value after exactly `k+1` invocations (and `k` backoff
sleeps); if it always fails retryably, the wrapper invokes it exactly
`max_attempts` times and propagates the last exception; a non-retryable
failure is propagated immediately with no further invocation. -/
theorem retry_policy_contract (outcomes : Nat → OpResult) (max_attempts : Nat) :
    (∀ k v, k < max_attempts →
      (∀ i, i < k → outcomes i = .failRetryable) → outcomes k = .ok v →
      retryRun outcomes max_attempts = (.returned v, k + 1, k))
  ∧ ((∀ i, outcomes i = .failRetryable) → 1 ≤ max_attempts →
      retryRun outcomes max_attempts
        = (.raisedRetryable, max_attempts, max_attempts - 1))
  ∧ (∀ k, k < max_attempts →
      (∀ i, i < k → outcomes i = .failRetryable) → outcomes k = .failOther →
      retryRun outcomes max_attempts = (.raisedOther, k + 1, k)) := by
  refine ⟨?_, ?_, ?_⟩
  · intro k v hk hfail hok
    exact retryLoop_ok outcomes k 0 max_attempts v hk
      (fun i hi => by simpa using hfail i hi) (by simpa using hok)
  · intro hfail hpos
    exact retryLoop_allfail outcomes hfail max_attempts 0 hpos
  · intro k hk hfail hother
    exact retryLoop_other outcomes k 0 max_attempts hk
      (fun i hi => by simpa using hfail i hi) (by simpa using hother)

/-- C4 (witness): three concrete operations under `max_attempts = 3`: two
retryable failures then success (3 invocations, value returned), always
failing retryably (3 invocations, last exception propagated), and a
non-retryable failure on the second invocation (2 invocations, immediate
propagation). -/
theorem retry_policy_contract_witness :
    retryRun (fun i => if i < 2 then .failRetryable else .ok 42) 3
      = (.returned 42, 3, 2)
  ∧ retryRun (fun _ => .failRetryable) 3 = (.raisedRetryable, 3, 2)
  ∧ retryRun (fun i => if i = 0 then .failRetryable else .failOther) 3
      = (.raisedOther, 2, 1) :=
  ⟨(retry_policy_contract (fun i => if i < 2 then .failRetryable else .ok 42) 3).1
      2 42 (by omega) (fun i hi => by simp [hi]) (by simp),
   (retry_policy_contract (fun _ => .failRetryable) 3).2.1 (fun _ => rfl) (by omega),
   (retry_policy_contract (fun i => if i = 0 then .failRetryable else .failOther) 3).2.2
      1 (by omega) (fun i hi => by simp [Nat.lt_one_iff.mp hi]) (by simp)⟩

lemma read_once_time_of_failure (ct lt : Int) (resp : Except String RDict)
    (ro : Bool) (h : (read_once ct lt resp ro).success = false) :
    (read_once ct lt resp ro).time = lt := by
  rcases resp with e | r
  · rfl
  · simp only [read_once] at h ⊢
    split_ifs at h ⊢ <;> simp_all

lemma read_once_time_of_success (ct lt : Int) (resp : Except String RDict)
    (ro : Bool) (h : (read_once ct lt resp ro).success = true) :
    (read_once ct lt resp ro).time = ct := by
  rcases resp with e | r
  · simp [read_once] at h
  · simp only [read_once] at h ⊢
    split_ifs at h ⊢
    simp_all

lemma read_once_success_eq (ct lt : Int) (resp : Except String RDict)
    (ro : Bool) :
    (read_once ct lt resp ro).success
      = attemptSucceeds ⟨ct, resp, ro⟩ := by
  rcases resp with e | r
  · rfl
  · simp only [read_once, attemptSucceeds]
    rcases hv : validate_response r with _ | _
    · rcases ro with _ | _ <;> simp [hv]
    · rcases hsy : (r.lookup "synckey").isSome with _ | _ <;> simp [hv, hsy]

/-- C5: `previousTime` advances only on success. `read_once` returns the
caller's `last_time` unchanged on every failure path (missing synckey,
failed validation with or without successful cookie renewal, exception
during the attempt) and returns the request's `ct` on success; one loop
iteration of `start_reading` passes `ct` on only when the attempt
succeeded, keeping `last_time` otherwise; and the payload's `ct` field is
exactly the clock value the signer was given. -/
theorem previous_time_advances_only_on_success :
    (∀ (ct lt : Int) (resp : Except String RDict) (ro : Bool),
      (read_once ct lt resp ro).success = false →
        (read_once ct lt resp ro).time = lt)
  ∧ (∀ (ct lt : Int) (resp : Except String RDict) (ro : Bool),
      (read_once ct lt resp ro).success = true →
        (read_once ct lt resp ro).time = ct)
  ∧ (∀ (envs : Nat → AttemptEnv) (a r sc : Nat) (lt : Int),
      readLoop envs a (r + 1) sc lt =
        (if (read_once (envs a).ct lt (envs a).resp (envs a).refreshOk).success
         then readLoop envs (a + 1) r (sc + 1) (envs a).ct
         else readLoop envs (a + 1) r sc lt)) := by
  refine ⟨read_once_time_of_failure, read_once_time_of_success, ?_⟩
  intro envs a r sc lt
  by_cases h : (read_once (envs a).ct lt (envs a).resp (envs a).refreshOk).success
  · rw [readLoop, if_pos h, if_pos h, read_once_time_of_success _ _ _ _ h]
  · rw [readLoop, if_neg h, if_neg h]

/-- C5 (witness): concrete failure and success environments: the failure
(missing synckey) keeps `last_time = 3`, the success advances to `ct = 7`. -/
theorem previous_time_advances_only_on_success_witness :
    (read_once 7 3 (.ok [("succ", PyVal.vInt 1)]) true).time = 3
  ∧ (read_once 7 3 (.ok [("succ", PyVal.vInt 1), ("synckey", PyVal.vStr "k")]) true).time = 7 :=
  ⟨previous_time_advances_only_on_success.1 7 3
      (.ok [("succ", PyVal.vInt 1)]) true (by decide),
   previous_time_advances_only_on_success.2.1 7 3
      (.ok [("succ", PyVal.vInt 1), ("synckey", PyVal.vStr "k")]) true (by decide)⟩

lemma readLoop_count (envs : Nat → AttemptEnv) :
    ∀ (r a sc : Nat) (lt : Int),
      (readLoop envs a r sc lt).1
        = sc + (List.range r).countP (fun i => attemptSucceeds (envs (a + i))) := by
  intro r
  induction r with
  | zero => intro a sc lt; simp [readLoop]
  | succ r ih =>
    intro a sc lt
    have hcons : (List.range (r + 1)).countP (fun i => attemptSucceeds (envs (a + i)))
        = (if attemptSucceeds (envs a) then 1 else 0)
          + (List.range r).countP (fun i => attemptSucceeds (envs (a + 1 + i))) := by
      rw [List.range_succ_eq_map, List.countP_cons, List.countP_map, Nat.add_comm]
      congr 1
      congr 1
      funext i
      simp only [Function.comp_apply, Nat.succ_eq_add_one]
      rw [show a + (i + 1) = a + 1 + i by omega]
    have hs := read_once_success_eq (envs a).ct lt (envs a).resp (envs a).refreshOk
    rw [readLoop]
    by_cases h : attemptSucceeds (envs a)
    · rw [if_pos (by rw [hs]; exact h), ih (a + 1) (sc + 1) _, hcons, if_pos h]
      omega
    · rw [if_neg (by rw [hs]; simpa using h), ih (a + 1) sc lt, hcons, if_neg h]
      omega

/-- C6: with the initial cookie renewal succeeding, `start_reading` over `N`
attempts of which `S` succeed returns `success_count = S`,
`total_attempts = N`, `reading_minutes = S * 0.5` and
`success_rate = S / N * 100`; in particular with `N = 10` and every attempt
succeeding the result is `success_count = 10`, `reading_minutes = 5.0`,
`success_rate = 100.0`. -/
theorem start_reading_statistics :
    (∀ (N : Nat) (t0 : Int) (envs : Nat → AttemptEnv),
      start_reading N true t0 envs
        = .ok { success_count := countSuccesses envs N
                total_attempts := N
                reading_minutes := (countSuccesses envs N : ℚ) * 0.5
                success_rate := (countSuccesses envs N : ℚ) / (N : ℚ) * 100 })
  ∧ start_reading 10 true 1000
      (fun _ => ⟨77, .ok [("succ", PyVal.vInt 1), ("synckey", PyVal.vStr "k")], true⟩)
      = .ok { success_count := 10, total_attempts := 10,
              reading_minutes := 5, success_rate := 100 } := by
  have hmain : ∀ (N : Nat) (t0 : Int) (envs : Nat → AttemptEnv),
      start_reading N true t0 envs
        = .ok { success_count := countSuccesses envs N
                total_attempts := N
                reading_minutes := (countSuccesses envs N : ℚ) * 0.5
                success_rate := (countSuccesses envs N : ℚ) / (N : ℚ) * 100 } := by
    intro N t0 envs
    have hcount : (readLoop envs 1 N 0 (t0 - 30)).1 = countSuccesses envs N := by
      rw [readLoop_count envs N 1 0 (t0 - 30), countSuccesses]
      simp only [Nat.zero_add]
      congr 1
      funext i
      rw [Nat.add_comm 1 i]
    simp [start_reading, hcount]
  refine ⟨hmain, ?_⟩
  rw [hmain]
  have hten : countSuccesses
      (fun _ => ⟨77, .ok [("succ", PyVal.vInt 1), ("synckey", PyVal.vStr "k")], true⟩) 10
      = 10 := by decide
  rw [hten]
  norm_num

/-- C9: `start_reading` raises only when the initial cookie renewal fails:
with a failed initial renewal it raises `AuthError`; with a successful one
it always returns a statistics record covering all `N ≥ 1` configured
attempts, absorbing every per-attempt failure. -/
theorem start_reading_error_policy :
    (∀ (N : Nat) (t0 : Int) (envs : Nat → AttemptEnv), 1 ≤ N →
      ∃ res, start_reading N true t0 envs = .ok res ∧ res.total_attempts = N)
  ∧ (∀ (N : Nat) (t0 : Int) (envs : Nat → AttemptEnv),
      start_reading N false t0 envs = .error ()) := by
  constructor
  · intro N t0 envs _
    exact ⟨_, rfl, rfl⟩
  · intro N t0 envs
    rfl

/-- C9 (witness): a run of 3 attempts whose transport always raises still
completes with a statistics record for all 3 attempts; the failed initial
renewal raises. -/
theorem start_reading_error_policy_witness :
    (∃ res, start_reading 3 true 0 (fun _ => ⟨5, .error "超时", false⟩) = .ok res
        ∧ res.total_attempts = 3)
  ∧ start_reading 3 false 0 (fun _ => ⟨5, .error "超时", false⟩) = .error () :=
  ⟨start_reading_error_policy.1 3 0 (fun _ => ⟨5, .error "超时", false⟩) (by decide),
   start_reading_error_policy.2 3 0 (fun _ => ⟨5, .error "超时", false⟩)⟩

/-- C7: the circuit breaker wraps the retry-decorated `post_json` on the
outside. While the breaker is Open with the cooldown not yet elapsed,
`read_book` ends in the circuit-open rejection with the breaker state
unchanged, zero network POST attempts and zero retry backoff sleeps: the
retry wrapper is never invoked. -/
theorem circuit_open_short_circuits_retry
    (th cd now t c maxA : Nat) (outcomes : Nat → OpResult)
    (hlt : now - t < cd) :
    read_book th cd ⟨c, some t, .opened⟩ now maxA outcomes
      = (⟨c, some t, .opened⟩, .circuitOpenRejection, 0, 0) := by
  have h1 : shouldAttemptReset ⟨c, some t, .opened⟩ cd now = false := by
    simp [shouldAttemptReset]
    omega
  simp [read_book, cbCall, h1]

/-- C7 (witness): an open breaker (threshold 5, cooldown 60, last failure at
10, now 30) rejects `read_book` with no POSTs and no backoff even though the
operation would keep failing retryably. -/
theorem circuit_open_short_circuits_retry_witness :
    read_book 5 60 ⟨5, some 10, .opened⟩ 30 3 (fun _ => .failRetryable)
      = (⟨5, some 10, .opened⟩, .circuitOpenRejection, 0, 0) :=
  circuit_open_short_circuits_retry 5 60 30 10 5 3 (fun _ => .failRetryable)
    (by decide)

lemma lookup_dictSet_self (d : RDict) (k : String) (v : PyVal) :
    (dictSet d k v).lookup k = some v := by
  induction d with
  | nil => simp [dictSet, List.lookup]
  | cons p rest ih =>
    obtain ⟨k1, v1⟩ := p
    by_cases h : k1 = k
    · subst h
      simp [dictSet, List.lookup]
    · have hb : (k == k1) = false := beq_eq_false_iff_ne.mpr (Ne.symm h)
      simp [dictSet, h, List.lookup, hb, ih]

lemma lookup_dictSet_ne (d : RDict) (k k1 : String) (v : PyVal)
    (h : k1 ≠ k) : (dictSet d k v).lookup k1 = d.lookup k1 := by
  have hb : (k1 == k) = false := beq_eq_false_iff_ne.mpr h
  induction d with
  | nil => simp [dictSet, List.lookup, hb]
  | cons p rest ih =>
    obtain ⟨k2, v2⟩ := p
    by_cases h2 : k2 = k
    · subst h2
      simp [dictSet, List.lookup, hb]
    · cases hb2 : (k1 == k2) <;>
        simp [dictSet, h2, List.lookup, hb2, ih]

lemma dictPop_idem (d : RDict) (k : String) :
    dictPop (dictPop d k) k = dictPop d k := by
  simp [dictPop, List.filter_filter]

/-- C8: `create_request_data` leaves its `base_data` argument unchanged (the
source operates on `base_data.copy()`); the returned payload carries
`b = bookId` and `c = chapterId`; the payload does not depend on any
pre-existing `s` entry of the base (it is popped first); and the returned
`s` is freshly computed as the custom hash of the serialized payload. -/
theorem create_request_data_frame (sha : String → String) (base : RDict)
    (bid cid : String) (lt ct ts rn : Int) :
    ((create_request_data sha base bid cid lt ct ts rn).1 = base)
  ∧ ((create_request_data sha base bid cid lt ct ts rn).2.lookup "b"
      = some (.vStr bid))
  ∧ ((create_request_data sha base bid cid lt ct ts rn).2.lookup "c"
      = some (.vStr cid))
  ∧ ((create_request_data sha base bid cid lt ct ts rn).2
      = (create_request_data sha (dictPop base "s") bid cid lt ct ts rn).2)
  ∧ ((create_request_data sha base bid cid lt ct ts rn).2.lookup "s"
      = some (.vStr (calculate_hash (encode_data
          (payloadCore sha base bid cid lt ct ts rn))))) := by
  refine ⟨rfl, ?_, ?_, ?_, ?_⟩
  · simp only [create_request_data, payloadCore]
    rw [lookup_dictSet_ne _ _ _ _ (by decide), lookup_dictSet_ne _ _ _ _ (by decide),
        lookup_dictSet_ne _ _ _ _ (by decide), lookup_dictSet_ne _ _ _ _ (by decide),
        lookup_dictSet_ne _ _ _ _ (by decide), lookup_dictSet_ne _ _ _ _ (by decide),
        lookup_dictSet_ne _ _ _ _ (by decide), lookup_dictSet_self]
  · simp only [create_request_data, payloadCore]
    rw [lookup_dictSet_ne _ _ _ _ (by decide), lookup_dictSet_ne _ _ _ _ (by decide),
        lookup_dictSet_ne _ _ _ _ (by decide), lookup_dictSet_ne _ _ _ _ (by decide),
        lookup_dictSet_ne _ _ _ _ (by decide), lookup_dictSet_ne _ _ _ _ (by decide),
        lookup_dictSet_self]
  · simp only [create_request_data, payloadCore, dictPop_idem]
  · simp only [create_request_data]
    exact lookup_dictSet_self _ _ _

/-- C10 (counterexample): with renewal header `"wr_skey="` a fragment
containing `wr_skey` exists and the truncated extracted key is the empty
string, but Python's truthiness test (`if new_skey:`) then takes the failure
branch: the orchestrator does not install the value, contradicting the
claim's "it is this truncated value the orchestrator installs". -/
theorem renew_cookie_empty_key_not_installed :
    renew_cookie "wr_skey=" = some ""
  ∧ refresh_cookie [("RK", "x")] (.ok (some "")) = (false, [("RK", "x")]) := by
  exact ⟨by decide, rfl⟩

/-- C10 (amended): on an HTTP-success renewal response, `renew_cookie`
returns `None` exactly when no `;`-separated cookie fragment contains
`wr_skey`; otherwise it returns the first 8 characters of the text after the
first matching fragment's last `=`; the orchestrator installs that value as
`cookies['wr_skey']` exactly when it is non-empty (Python truthiness) — a
`None` or empty extraction leaves the cookies unchanged and reports
failure. -/
theorem renew_cookie_extraction (hdr : String) :
    (renew_cookie hdr = none ↔
      ∀ frag ∈ pySplit hdr ';', strContains frag "wr_skey" = false)
  ∧ (∀ frag,
      (pySplit hdr ';').find? (fun c => strContains c "wr_skey") = some frag →
        renew_cookie hdr
          = some (String.mk (((pySplit frag '=').getLastD "").data.take 8)))
  ∧ (∀ (cookies : List (String × String)) (k : String), k ≠ "" →
      refresh_cookie cookies (.ok (some k)) = (true, cookieSet cookies "wr_skey" k))
  ∧ (∀ cookies : List (String × String),
      refresh_cookie cookies (.ok (some "")) = (false, cookies))
  ∧ (∀ cookies : List (String × String),
      refresh_cookie cookies (.ok none) = (false, cookies)) := by
  refine ⟨?_, ?_, ?_, fun _ => rfl, fun _ => rfl⟩
  · unfold renew_cookie
    rcases hf : (pySplit hdr ';').find? (fun c => strContains c "wr_skey")
      with _ | frag
    · simp only [hf]
      constructor
      · intro _ frag2 hmem
        have h := List.find?_eq_none.mp hf frag2 hmem
        simpa using h
      · intro _
        trivial
    · simp only [hf]
      constructor
      · intro h
        simp at h
      · intro hall
        exfalso
        have hp := List.find?_some hf
        have hmem := List.mem_of_find?_eq_some hf
        rw [hall frag hmem] at hp
        cases hp
  · intro frag hf
    unfold renew_cookie
    rw [hf]
  · intro cookies k hk
    simp [refresh_cookie, hk]

/-- C10 (witness): header `"wr_skey=abcdefghijkl"` yields the 8-character key
`"abcdefgh"`, which is installed into the cookies under `wr_skey`. -/
theorem renew_cookie_extraction_witness :
    renew_cookie "wr_skey=abcdefghijkl" = some "abcdefgh"
  ∧ refresh_cookie [("RK", "x")] (.ok (some "abcdefgh"))
      = (true, [("RK", "x"), ("wr_skey", "abcdefgh")]) :=
  ⟨by rw [(renew_cookie_extraction "wr_skey=abcdefghijkl").2.1
        "wr_skey=abcdefghijkl" (by decide)]; decide,
   by rw [(renew_cookie_extraction "wr_skey=abcdefghijkl").2.2.1
        [("RK", "x")] "abcdefgh" (by decide)]; decide⟩

end WxRead

